import Mathlib

/-!
Verification of the INGRES AI chatbot RAG pipeline
(`backend/app/services/ingestion.py` and
`backend/app/services/rag_pipeline.py`), shallowly embedded in Lean 4.

Texts are Lean `String`s.  Python strings are sequences of characters, so
the Python operations used by the code (`len`, slicing `s[:n]` / `s[n:]`,
`strip`, `lower`, substring membership `in`, `str.join`, `str.split`) are
modelled structurally on the underlying character list, which keeps every
definition kernel-executable.  Embedding vectors are `List Int` (only
squared-Euclidean distances and their ordering matter to the verified
properties).  Fallible Python code is modelled with `Except`.
-/

namespace IngresRag

/-! ### Python string primitives -/

/-- Python `len(s)` (number of characters). -/
def pyLen (s : String) : Nat := s.data.length

/-- Python `s[:n]`. -/
def pySlice (s : String) (n : Nat) : String := String.mk (s.data.take n)

/-- Python `s[n:]`. -/
def pyDrop (s : String) (n : Nat) : String := String.mk (s.data.drop n)

/-- Python `s.strip()`: remove leading and trailing whitespace. -/
def pyStrip (s : String) : String :=
  String.mk (((s.data.dropWhile Char.isWhitespace).reverse.dropWhile Char.isWhitespace).reverse)

/-- Python `s.lower()`. -/
def pyLower (s : String) : String := String.mk (s.data.map Char.toLower)

/-- Whether `needle` occurs contiguously inside the character list. -/
def infixAux (needle : List Char) : List Char → Bool
  | [] => needle.isEmpty
  | c :: cs => needle.isPrefixOf (c :: cs) || infixAux needle cs

/-- Python `needle in hay` for strings. -/
def pyContains (hay needle : String) : Bool := infixAux needle.data hay.data

/-- Python `sep.join(pieces)`. -/
def joinSep (sep : String) : List String → String
  | [] => ""
  | [x] => x
  | x :: xs => x ++ sep ++ joinSep sep xs

/-- Worker for Python `s.split()`: accumulate the current token (reversed)
and emit it at each whitespace run, dropping empty pieces. -/
def tokenizeAux : List Char → List Char → List String
  | acc, [] => if acc.isEmpty then [] else [String.mk acc.reverse]
  | acc, c :: cs =>
    if c.isWhitespace then
      if acc.isEmpty then tokenizeAux [] cs
      else String.mk acc.reverse :: tokenizeAux [] cs
    else tokenizeAux (c :: acc) cs

/-- Python `text.split()`: split on whitespace runs, no empty tokens. -/
def tokenize (text : String) : List String := tokenizeAux [] text.data

/-! ### Data model -/

/-- One metadata record, as written by `load_or_create_index`:
`{"source": ..., "title": ..., "text": ...}`.  Every record the pipeline
ever builds has all three keys, so the `dict.get` defaults in the Python
code are never exercised. -/
structure MetaRec where
  source : String
  title : String
  text : String
deriving DecidableEq, Inhabited

/-! ### Chunker (`ingestion.chunk_text`) -/

/-- The `while i < len(tokens)` loop of `chunk_text`, with explicit fuel.
Each iteration emits `" ".join(tokens[i:i+size])` and advances `i` by
`size - overlap`.  Fuel `tokens.length` always suffices when
`overlap < size` (proved below); the Python loop does not terminate when
`overlap >= size`. -/
def chunkAux (tokens : List String) (size overlap : Nat) : Nat → Nat → List String
  | 0, _ => []
  | fuel + 1, i =>
    if i < tokens.length then
      joinSep " " ((tokens.drop i).take size) ::
        chunkAux tokens size overlap fuel (i + (size - overlap))
    else []

/-- `ingestion.chunk_text(text, chunk_size=800, overlap=100)`. -/
def chunk_text (text : String) (size : Nat := 800) (overlap : Nat := 100) : List String :=
  chunkAux (tokenize text) size overlap (tokenize text).length 0

/-! ### Vector index (FAISS `IndexFlatL2`) -/

/-- Squared Euclidean distance between two vectors. -/
def sqDist (u v : List Int) : Int := (List.zipWith (fun a b => (a - b) ^ 2) u v).sum

/-- Order on (position, distance) pairs: by non-decreasing distance. -/
def byDist (a b : Nat × Int) : Prop := a.2 ≤ b.2

instance : DecidableRel byDist := fun a b => inferInstanceAs (Decidable (a.2 ≤ b.2))

instance : IsTotal (Nat × Int) byDist := ⟨fun a b => le_total a.2 b.2⟩

instance : IsTrans (Nat × Int) byDist := ⟨fun _ _ _ => le_trans⟩

/-- All stored positions paired with their distance to the query vector,
ordered by non-decreasing distance. -/
def rankedPositions (vectors : List (List Int)) (qv : List Int) : List (Nat × Int) :=
  List.insertionSort byDist ((vectors.map (fun v => sqDist v qv)).enum)

/-- Modelled from the spec: the external FAISS `IndexFlatL2.search` used by
`RAGPipeline._search` — exact k-nearest-neighbour by ascending squared
Euclidean distance, returning exactly `k` position slots, the unused ones
filled with `-1` (the library's behaviour when fewer than `k` vectors are
stored). -/
def faissSearch (vectors : List (List Int)) (qv : List Int) (k : Nat) : List Int :=
  let top := ((rankedPositions vectors qv).take k).map (fun p => (p.1 : Int))
  top ++ List.replicate (k - top.length) (-1)

/-! ### Retriever (`RAGPipeline._search`) -/

/-- The result loop of `_search`: skip any position that is negative or
not smaller than `len(self.metadatas)`, otherwise look the record up. -/
def searchCollect (metadatas : List MetaRec) : List Int → List MetaRec
  | [] => []
  | idx :: rest =>
    if idx < 0 ∨ (metadatas.length : Int) ≤ idx then searchCollect metadatas rest
    else metadatas.getD idx.toNat default :: searchCollect metadatas rest

/-- `RAGPipeline._search(query, top_k=4)`: embed the query, run the FAISS
search, and map surviving positions to metadata records. -/
def search (vectors : List (List Int)) (metadatas : List MetaRec)
    (embed : String → List Int) (query : String) (top_k : Nat := 4) : List MetaRec :=
  searchCollect metadatas (faissSearch vectors (embed query) top_k)

/-- Guard of the `_search` result loop: the position is in range of the
metadata sequence. -/
def validPos (metadatas : List MetaRec) (idx : Int) : Bool :=
  decide (0 ≤ idx ∧ idx < (metadatas.length : Int))

/-- The positions the `_search` result loop keeps (those not dropped by
the range guard), in order. -/
def keptPositions (vectors : List (List Int)) (metadatas : List MetaRec)
    (qv : List Int) (k : Nat) : List Int :=
  (faissSearch vectors qv k).filter (validPos metadatas)

/-! ### Ingestion (`ingestion.load_or_create_index`) -/

/-- A file in `data/docs/`.  `pdfPages` models what `PyPDF2.PdfReader`
yields for it (`Except.error` if the reader or page iteration raises;
each page's `extract_text()` may return `none`).  `rawContent` models
`file.read_text()` (`Except.error` if that read raises). -/
structure SrcFile where
  name : String
  isPdf : Bool
  pdfPages : Except Unit (List (Option String))
  rawContent : Except Unit String

/-- `ingestion.extract_text_from_pdf`: join the pages' texts with
newlines, treating a failed page extraction as `""`; any raised error
yields `""`. -/
def extract_text_from_pdf (pages : Except Unit (List (Option String))) : String :=
  match pages with
  | Except.error _ => ""
  | Except.ok ps => joinSep "\n" (ps.map (fun p => p.getD ""))

/-- Text extraction for one file: PDF-specific extraction for `.pdf`
files (never raises), plain `read_text` otherwise (may raise). -/
def fileText (f : SrcFile) : Except Unit String :=
  if f.isPdf then Except.ok (extract_text_from_pdf f.pdfPages) else f.rawContent

/-- The metadata records one file contributes: one per chunk, with
`{"source": name, "title": f"(name) - chunk (i)", "text": chunk}`. -/
def fileRecords (f : SrcFile) (text : String) : List MetaRec :=
  (chunk_text text).enum.map (fun p =>
    ⟨f.name, f.name ++ " - chunk " ++ toString p.1, p.2⟩)

/-- The ingestion loop of `load_or_create_index`: per file, extract text
(a raised extraction error propagates), skip the file when the stripped
text is empty, otherwise append its chunk records in order.  The parallel
`texts` list of the Python code is recoverable as `metas.map (·.text)`,
since the two lists are appended in lockstep with `text` equal to the
chunk. -/
def gatherMetas : List SrcFile → Except Unit (List MetaRec)
  | [] => Except.ok []
  | f :: fs =>
    match fileText f with
    | Except.error e => Except.error e
    | Except.ok text =>
      match gatherMetas fs with
      | Except.error e => Except.error e
      | Except.ok rest =>
        if (pyStrip text).isEmpty then Except.ok rest
        else Except.ok (fileRecords f text ++ rest)

/-- The two persisted artifacts (`faiss.index` file and `.meta.json`
file); `none` means the file does not exist. -/
structure DiskState where
  indexArt : Option (List (List Int))
  metaArt : Option (List MetaRec)
deriving DecidableEq

/-- The build branch of `load_or_create_index`: gather the chunk records
over the document files (the Python `texts`/`metadatas` pair appended in
lockstep), then either persist an empty index when nothing was gathered
(an empty corpus yields an empty index of the model's dimension) or embed
every gathered text, in order. -/
def buildIndex (embed : String → List Int) (files : List SrcFile) :
    Except Unit (List (List Int) × List MetaRec) :=
  match gatherMetas files with
  | Except.error e => Except.error e
  | Except.ok metas =>
    if metas.isEmpty then Except.ok ([], [])
    else Except.ok (metas.map (fun r => embed r.text), metas)

/-- `ingestion.load_or_create_index(index_path, meta_path)`: if both
artifacts exist, load and return them verbatim; otherwise build from the
document files. -/
def load_or_create_index (embed : String → List Int) (files : List SrcFile)
    (disk : DiskState) : Except Unit (List (List Int) × List MetaRec) :=
  match disk.indexArt, disk.metaArt with
  | some idx, some m => Except.ok (idx, m)
  | _, _ => buildIndex embed files

/-- The on-disk write sequence the build path performs after computing
the new pair: `faiss.write_index(...)` first, then `json.dump` of the
metadata — two separate in-place writes, in this order. -/
def persistWrites (v : List (List Int)) (m : List MetaRec) : List (DiskState → DiskState) :=
  [fun d => ⟨some v, d.metaArt⟩, fun d => ⟨d.indexArt, some m⟩]

/-- The disk state observed if the process stops after the first `n` of
the build's write steps. -/
def diskAfterPrefix (v : List (List Int)) (m : List MetaRec) (d : DiskState) (n : Nat) :
    DiskState :=
  ((persistWrites v m).take n).foldl (fun s w => w s) d

/-! ### Prompt assembly and generation (`RAGPipeline.generate_response`) -/

/-- The fixed system framing of the generation prompt. -/
def systemPrompt : String :=
  "You are an AI support assistant for INGRES. Use the provided context from product docs to answer precisely. If the answer is uncertain, say so and propose troubleshooting steps. If the user needs escalation, advise creating a ticket."

/-- One context entry: `f"Title: (title)\n(text[:1000])"`. -/
def contextEntry (d : MetaRec) : String :=
  "Title: " ++ d.title ++ "\n" ++ pySlice d.text 1000

/-- The context block: entries joined by separators, or the fixed
placeholder when nothing was retrieved. -/
def contextBlock (docs : List MetaRec) : String :=
  if docs.isEmpty then "No relevant doc found."
  else joinSep "\n\n---\n\n" (docs.map contextEntry)

/-- The full generation prompt assembled by `generate_response`. -/
def fullPrompt (docs : List MetaRec) (query : String) : String :=
  systemPrompt ++ "\n\nContext from documentation:\n" ++ contextBlock docs ++
    "\n\nUser question: " ++ query ++ "\n\nAnswer:"

/-! ### Fallback synthesis (`RAGPipeline._generate_fallback_response`) -/

/-- The fixed reply when no chunks were retrieved. -/
def noDocsMessage : String :=
  "I don\x27t have specific documentation to answer your question about INGRES. However, I can help you troubleshoot common issues. You can also create a support ticket if you need further assistance."

/-- Header of the template-based fallback reply. -/
def fallbackHeader : String :=
  "Based on the INGRES documentation, here\x27s what I found:\n\n"

/-- Canned hint for connection-related queries. -/
def connectionHint : String :=
  "**Connection Help:** Check your network settings, verify the default port (21064), and ensure the database server is running.\n\n"

/-- Canned hint for error-related queries. -/
def errorHint : String :=
  "**Error Help:** If you\x27re experiencing specific errors, please share the error code or message for more targeted assistance.\n\n"

/-- Canned hint for performance-related queries. -/
def performanceHint : String :=
  "**Performance Help:** Consider reviewing your indexing strategy, query plans, and system resources.\n\n"

/-- Closing line of the fallback reply (the leading four characters are
the source file's bytes as decoded characters). -/
def closingLine : String :=
  "ðŸ’¡ **Need more help?** Try asking more specific questions or type \x27create support ticket\x27 to get personalized assistance."

/-- Per-chunk display text: truncate to 500 characters with an ellipsis
marker when longer. -/
def displayText (text : String) : String :=
  if 500 < pyLen text then pySlice text 500 ++ "..." else text

/-- One rendered chunk: `f"**(i). (title)**\n(display_text)\n\n"`. -/
def renderDoc (i : Nat) (d : MetaRec) : String :=
  "**" ++ toString i ++ ". " ++ d.title ++ "**\n" ++ displayText d.text ++ "\n\n"

/-- Keywords triggering the connection hint. -/
def connectionWords : List String := ["connection", "connect", "timeout"]

/-- Keywords triggering the error hint. -/
def errorWords : List String := ["error", "issue", "problem"]

/-- Keywords triggering the performance hint. -/
def performanceWords : List String := ["performance", "slow", "optimization"]

/-- Python `any(word in query_lower for word in words)`. -/
def matchesAny (queryLower : String) (words : List String) : Bool :=
  words.any (fun w => pyContains queryLower w)

/-- The hint appended by the `if/elif` keyword cascade, `""` when no
keyword set matches the lowered query. -/
def queryHint (query : String) : String :=
  let ql := pyLower query
  if matchesAny ql connectionWords then connectionHint
  else if matchesAny ql errorWords then errorHint
  else if matchesAny ql performanceWords then performanceHint
  else ""

/-- `RAGPipeline._generate_fallback_response(query, docs)`. -/
def generate_fallback_response (query : String) (docs : List MetaRec) : String :=
  if docs.isEmpty then noDocsMessage
  else
    fallbackHeader ++
      String.join ((docs.take 3).enum.map (fun p => renderDoc (p.1 + 1) p.2)) ++
      queryHint query ++ closingLine

/-! ### The pipeline façade (`RAGPipeline.generate_response`) -/

/-- Whether a generation attempt counts as failed for the given prompt:
the generator raised, or the completion left after stripping the echoed
prompt prefix is empty or whitespace-only. -/
def genFails (gen : String → Except String String) (prompt : String) : Bool :=
  match gen prompt with
  | Except.error _ => true
  | Except.ok g => (pyStrip (pyDrop g (pyLen prompt))).isEmpty

/-- `RAGPipeline.generate_response(query)`: retrieve with `top_k=4`,
assemble the prompt, attempt generation (`gen` models what the loaded LLM
pipeline returns for a prompt, `Except.error` when it raises), and fall
back to the template response on failure or empty completion.  Returns
`(reply, docs)`. -/
def generate_response (vectors : List (List Int)) (metadatas : List MetaRec)
    (embed : String → List Int) (gen : String → Except String String)
    (query : String) : String × List MetaRec :=
  let docs := search vectors metadatas embed query 4
  let prompt := fullPrompt docs query
  match gen prompt with
  | Except.error _ => (generate_fallback_response query docs, docs)
  | Except.ok g =>
    let reply := pyStrip (pyDrop g (pyLen prompt))
    if reply.isEmpty then (generate_fallback_response query docs, docs)
    else (reply, docs)

/-! ### Chunker lemmas -/

lemma chunkAux_zero (tokens : List String) (size overlap i : Nat) :
    chunkAux tokens size overlap 0 i = [] := rfl

lemma chunkAux_stop (tokens : List String) (size overlap fuel i : Nat)
    (h : tokens.length ≤ i) : chunkAux tokens size overlap fuel i = [] := by
  cases fuel with
  | zero => rfl
  | succ f => simp [chunkAux, Nat.not_lt.mpr h]

lemma chunkAux_fuel (tokens : List String) (size overlap : Nat) (hso : overlap < size) :
    ∀ fuel₁ fuel₂ i : Nat, tokens.length - i ≤ fuel₁ → tokens.length - i ≤ fuel₂ →
      chunkAux tokens size overlap fuel₁ i = chunkAux tokens size overlap fuel₂ i := by
  intro fuel₁
  induction fuel₁ with
  | zero =>
    intro fuel₂ i h1 _
    rw [chunkAux_zero, chunkAux_stop tokens size overlap fuel₂ i (by omega)]
  | succ f ih =>
    intro fuel₂ i h1 h2
    cases fuel₂ with
    | zero =>
      rw [chunkAux_zero, chunkAux_stop tokens size overlap (f + 1) i (by omega)]
    | succ g =>
      by_cases hi : i < tokens.length
      · simp only [chunkAux, if_pos hi]
        rw [ih g (i + (size - overlap)) (by omega) (by omega)]
      · simp [chunkAux, hi]

lemma ceil_div_step (s n : Nat) (hs : 0 < s) (hn : 0 < n) :
    (n + s - 1) / s = (n - s + s - 1) / s + 1 := by
  rcases le_or_lt s n with h | h
  · rcases le_or_lt s (n - s) with h2 | h2
    · have e1 : n + s - 1 = (n - s + s - 1) + s := by omega
      rw [e1, Nat.add_div_right _ hs]
    · have e1 : n + s - 1 = (n - 1) + s := by omega
      have e2 : n - s + s - 1 = n - 1 := by omega
      rw [e1, Nat.add_div_right _ hs, e2]
  · have e1 : n - s = 0 := by omega
    have e2 : n + s - 1 = (n - 1) + s := by omega
    rw [e1, e2, Nat.add_div_right _ hs, Nat.div_eq_of_lt (by omega),
      Nat.div_eq_of_lt (by omega)]

lemma chunkAux_length (tokens : List String) (size overlap : Nat) (hso : overlap < size) :
    ∀ fuel i : Nat, tokens.length - i ≤ fuel →
      (chunkAux tokens size overlap fuel i).length =
        (tokens.length - i + (size - overlap) - 1) / (size - overlap) := by
  intro fuel
  induction fuel with
  | zero =>
    intro i h
    have e : tokens.length - i = 0 := by omega
    rw [chunkAux_zero, e, List.length_nil]
    exact (Nat.div_eq_of_lt (by omega)).symm
  | succ f ih =>
    intro i h
    by_cases hi : i < tokens.length
    · simp only [chunkAux, if_pos hi, List.length_cons]
      rw [ih (i + (size - overlap)) (by omega)]
      have e : tokens.length - (i + (size - overlap)) =
          (tokens.length - i) - (size - overlap) := by omega
      rw [e, (ceil_div_step (size - overlap) (tokens.length - i) (by omega) (by omega)).symm]
    · rw [chunkAux_stop tokens size overlap (f + 1) i (by omega), List.length_nil]
      have e : tokens.length - i = 0 := by omega
      rw [e]
      exact (Nat.div_eq_of_lt (by omega)).symm

/-! ### Claim C2 -/

/-- Claim C2, counterexample: `chunk_text("a b c d", size=4, overlap=1)` has
`L = 4` tokens with `L ≤ S`, yet produces the 2 chunks `["a b c d", "d"]`,
not the `ceil(max(0, L-O)/(S-O)) = 1` chunk the claim states. -/
theorem C2_counterexample :
    chunk_text "a b c d" 4 1 = ["a b c d", "d"] ∧
    (tokenize "a b c d").length = 4 ∧
    (chunk_text "a b c d" 4 1).length ≠
      (max 0 ((tokenize "a b c d").length - 1) + (4 - 1) - 1) / (4 - 1) := by
  refine ⟨by decide, by decide, by decide⟩

/-- Claim C2, amended: for `overlap < size`, `chunk_text` produces exactly
`ceil(L / (S - O))` chunks (written `(L + (S-O) - 1) / (S-O)` over `Nat`);
`L = 0` yields no chunk, `1 ≤ L ≤ S - O` yields exactly one chunk, and
`chunk_text("a b c d e f", size=4, overlap=1) = ["a b c d", "d e f"]`. -/
theorem C2_chunk_count (text : String) (size overlap : Nat) (h : overlap < size) :
    (chunk_text text size overlap).length =
      ((tokenize text).length + (size - overlap) - 1) / (size - overlap) ∧
    ((tokenize text).length = 0 → chunk_text text size overlap = []) ∧
    (1 ≤ (tokenize text).length → (tokenize text).length ≤ size - overlap →
      (chunk_text text size overlap).length = 1) ∧
    chunk_text "a b c d e f" 4 1 = ["a b c d", "d e f"] := by
  have hc : (chunk_text text size overlap).length =
      ((tokenize text).length + (size - overlap) - 1) / (size - overlap) := by
    simpa using
      chunkAux_length (tokenize text) size overlap h (tokenize text).length 0 (by omega)
  refine ⟨hc, ?_, ?_, by decide⟩
  · intro h0
    exact chunkAux_stop (tokenize text) size overlap (tokenize text).length 0 (by omega)
  · intro h1 h2
    rw [hc, show (tokenize text).length + (size - overlap) - 1 =
        ((tokenize text).length - 1) + (size - overlap) by omega,
      Nat.add_div_right _ (by omega), Nat.div_eq_of_lt (by omega)]

/-- Witness for `C2_chunk_count` at `size = 4`, `overlap = 1`,
text `"a b c"` (3 tokens, `L ≤ S - O`). -/
theorem C2_chunk_count_witness : 1 < 4 ∧ (chunk_text "a b c" 4 1).length = 1 :=
  ⟨by decide, ((C2_chunk_count "a b c" 4 1 (by decide)).2.2.1) (by decide) (by decide)⟩

/-! ### Claim C8 -/

/-- Claim C8: when `overlap < size` the chunking loop terminates — its
fuelled unrolling is independent of the fuel once the fuel reaches the
token count, so `chunk_text` is the loop's value as a total function of
its inputs. -/
theorem C8_chunk_terminates (text : String) (size overlap : Nat) (h : overlap < size) :
    ∀ fuel : Nat, (tokenize text).length ≤ fuel →
      chunkAux (tokenize text) size overlap fuel 0 = chunk_text text size overlap := by
  intro fuel hf
  exact chunkAux_fuel (tokenize text) size overlap h fuel (tokenize text).length 0
    (by omega) (by omega)

/-- Witness for `C8_chunk_terminates`: with generous fuel the loop on
`"a b"` with `size = 4`, `overlap = 1` computes `chunk_text`'s value. -/
theorem C8_chunk_terminates_witness :
    1 < 4 ∧ chunkAux (tokenize "a b") 4 1 99 0 = chunk_text "a b" 4 1 :=
  ⟨by decide, C8_chunk_terminates "a b" 4 1 (by decide) 99 (by decide)⟩

/-! ### Retriever lemmas -/

lemma searchCollect_eq (metadatas : List MetaRec) :
    ∀ I : List Int, searchCollect metadatas I =
      (I.filter (validPos metadatas)).map (fun idx => metadatas.getD idx.toNat default) := by
  intro I
  induction I with
  | nil => rfl
  | cons idx rest ih =>
    by_cases h : idx < 0 ∨ (metadatas.length : Int) ≤ idx
    · have hv : validPos metadatas idx = false := by
        simp only [validPos, decide_eq_false_iff_not]
        omega
      simp [searchCollect, if_pos h, List.filter_cons, hv, ih]
    · have hv : validPos metadatas idx = true := by
        simp only [validPos, decide_eq_true_eq]
        omega
      simp [searchCollect, if_neg h, List.filter_cons, hv, ih]

lemma length_faissSearch (vectors : List (List Int)) (qv : List Int) (k : Nat) :
    (faissSearch vectors qv k).length = k := by
  simp only [faissSearch, List.length_append, List.length_map, List.length_take,
    List.length_replicate]
  omega

lemma search_length_le (vectors : List (List Int)) (metadatas : List MetaRec)
    (embed : String → List Int) (query : String) (k : Nat) :
    (search vectors metadatas embed query k).length ≤ k := by
  rw [search, searchCollect_eq, List.length_map]
  calc (List.filter (validPos metadatas) (faissSearch vectors (embed query) k)).length
      ≤ (faissSearch vectors (embed query) k).length := List.length_filter_le _ _
    _ = k := length_faissSearch vectors (embed query) k

lemma filter_validPos_replicate (metadatas : List MetaRec) (k : Nat) :
    List.filter (validPos metadatas) (List.replicate k (-1)) = [] := by
  induction k with
  | zero => rfl
  | succ n ih => simp [List.replicate_succ, List.filter_cons, validPos, ih]

lemma search_nil (metadatas : List MetaRec) (embed : String → List Int)
    (query : String) (k : Nat) : search [] metadatas embed query k = [] := by
  rw [search, searchCollect_eq]
  have h1 : faissSearch [] (embed query) k = List.replicate k (-1) := by
    simp [faissSearch, rankedPositions]
  rw [h1, filter_validPos_replicate]
  rfl

lemma mem_ranked_lt (vectors : List (List Int)) (qv : List Int) (p : Nat × Int)
    (hp : p ∈ rankedPositions vectors qv) :
    p.1 < vectors.length ∧ p.2 = sqDist (vectors.getD p.1 []) qv := by
  have h1 : p ∈ (vectors.map (fun v => sqDist v qv)).enum := by
    rw [rankedPositions] at hp
    exact (List.mem_insertionSort byDist).mp hp
  obtain ⟨i, x⟩ := p
  rw [List.mk_mem_enum_iff_getElem?] at h1
  have h2 : i < (vectors.map (fun v => sqDist v qv)).length :=
    (List.getElem?_eq_some.mp h1).1
  have hlt : i < vectors.length := by simpa using h2
  refine ⟨hlt, ?_⟩
  have h3 := List.getElem?_eq_getElem (l := (vectors.map (fun v => sqDist v qv)))
    (n := i) h2
  rw [h1] at h3
  have h4 : x = (vectors.map (fun v => sqDist v qv))[i] :=
    Option.some_inj.mp h3
  simp only [List.getElem_map] at h4
  rw [h4, List.getD_eq_getElem vectors [] hlt]

lemma sorted_ranked (vectors : List (List Int)) (qv : List Int) :
    List.Sorted byDist (rankedPositions vectors qv) :=
  List.sorted_insertionSort byDist _

lemma search_sorted (vectors : List (List Int)) (metadatas : List MetaRec)
    (qv : List Int) (k : Nat) (h : metadatas.length = vectors.length) :
    List.Sorted (· ≤ ·)
      ((keptPositions vectors metadatas qv k).map
        (fun idx => sqDist (vectors.getD idx.toNat []) qv)) := by
  have hkept : keptPositions vectors metadatas qv k =
      ((rankedPositions vectors qv).take k).map (fun p => (p.1 : Int)) := by
    rw [keptPositions, faissSearch]
    rw [List.filter_append, filter_validPos_replicate, List.append_nil]
    apply List.filter_eq_self.mpr
    intro a ha
    obtain ⟨p, hp, rfl⟩ := List.mem_map.mp ha
    have hmem : p ∈ rankedPositions vectors qv := List.mem_of_mem_take hp
    have hlt := (mem_ranked_lt vectors qv p hmem).1
    simp only [validPos, decide_eq_true_eq]
    omega
  rw [hkept, List.map_map]
  have hsorted : List.Sorted byDist ((rankedPositions vectors qv).take k) :=
    (sorted_ranked vectors qv).sublist (List.take_sublist k _)
  have heq : ((rankedPositions vectors qv).take k).map
      ((fun idx => sqDist (vectors.getD idx.toNat []) qv) ∘ (fun p : Nat × Int => (p.1 : Int))) =
      ((rankedPositions vectors qv).take k).map Prod.snd := by
    apply List.map_congr_left
    intro p hp
    have hmem : p ∈ rankedPositions vectors qv := List.mem_of_mem_take hp
    have h2 := (mem_ranked_lt vectors qv p hmem).2
    simp only [Function.comp_apply, Int.toNat_natCast]
    exact h2.symm
  rw [heq]
  exact List.Pairwise.map Prod.snd (fun a b hab => hab) hsorted

/-! ### Claim C3 -/

/-- Claim C3: `_search` on an empty index returns `[]` for every query and
every `k`; every result list has length at most `k`; the result loop keeps
exactly the in-range positions, in order, silently dropping negative or
out-of-range positions instead of raising; and when the metadata sequence
parallels the vector sequence, the kept positions are ordered by
non-decreasing squared-Euclidean distance to the query embedding. -/
theorem C3_search (vectors : List (List Int)) (metadatas : List MetaRec)
    (embed : String → List Int) (query : String) (k : Nat) (I : List Int)
    (h : metadatas.length = vectors.length) :
    search [] metadatas embed query k = [] ∧
    (search vectors metadatas embed query k).length ≤ k ∧
    searchCollect metadatas I =
      (I.filter (validPos metadatas)).map (fun idx => metadatas.getD idx.toNat default) ∧
    List.Sorted (· ≤ ·)
      ((keptPositions vectors metadatas (embed query) k).map
        (fun idx => sqDist (vectors.getD idx.toNat []) (embed query))) :=
  ⟨search_nil metadatas embed query k, search_length_le vectors metadatas embed query k,
    searchCollect_eq metadatas I, search_sorted vectors metadatas (embed query) k h⟩

/-- Witness for `C3_search` on a concrete two-vector index with parallel
metadata. -/
theorem C3_search_witness :
    ([⟨"a", "t1", "x1"⟩, ⟨"b", "t2", "x2"⟩] : List MetaRec).length =
      [[(0 : Int)], [3]].length ∧
    List.Sorted (· ≤ ·)
      ((keptPositions [[(0 : Int)], [3]] [⟨"a", "t1", "x1"⟩, ⟨"b", "t2", "x2"⟩] [1] 2).map
        (fun idx => sqDist ([[(0 : Int)], [3]].getD idx.toNat []) [1])) :=
  ⟨by decide,
    (C3_search [[0], [3]] [⟨"a", "t1", "x1"⟩, ⟨"b", "t2", "x2"⟩] (fun _ => [1]) "q" 2
      [5, -1, 0] (by decide)).2.2.2⟩

/-! ### Ingestion lemmas -/

lemma buildIndex_parallel (embed : String → List Int) (files : List SrcFile)
    (v : List (List Int)) (m : List MetaRec)
    (hok : buildIndex embed files = Except.ok (v, m)) : v.length = m.length := by
  cases hg : gatherMetas files with
  | error e => simp [buildIndex, hg] at hok
  | ok metas =>
    by_cases he : metas.isEmpty = true
    · simp only [buildIndex, hg, he, if_true] at hok
      obtain ⟨rfl, rfl⟩ := Prod.mk.injEq .. ▸ (Except.ok.injEq .. ▸ hok)
      rfl
    · simp only [buildIndex, hg, he, if_false] at hok
      obtain ⟨rfl, rfl⟩ := Prod.mk.injEq .. ▸ (Except.ok.injEq .. ▸ hok)
      simp

lemma gatherMetas_skip_pdf_fail (f : SrcFile) (hpdf : f.isPdf = true)
    (hfail : f.pdfPages = Except.error ()) :
    ∀ pre post : List SrcFile,
      gatherMetas (pre ++ f :: post) = gatherMetas (pre ++ post) := by
  intro pre
  induction pre with
  | nil =>
    intro post
    have h0 : (pyStrip (extract_text_from_pdf (Except.error ()))).isEmpty = true := rfl
    simp only [List.nil_append, gatherMetas, fileText, hpdf, if_true, hfail, h0]
    cases hg : gatherMetas post with
    | error e => simp [hg]
    | ok rest => simp [hg]
  | cons g pre ih =>
    intro post
    simp only [List.cons_append, gatherMetas, List.append_eq, ih post]

/-! ### Claim C4 -/

/-- Claim C4: every `(index, metadata)` pair returned by
`load_or_create_index` has as many stored vectors as metadata records —
unconditionally on the build path (the two lists are appended in lockstep
and every gathered text is embedded), and on the load path whenever the
persisted artifacts are parallel, which every persisted build output is. -/
theorem C4_index_meta_parallel (embed : String → List Int) (files : List SrcFile)
    (disk : DiskState)
    (hdisk : ∀ idx m, disk.indexArt = some idx → disk.metaArt = some m →
      idx.length = m.length) :
    ∀ v m, load_or_create_index embed files disk = Except.ok (v, m) →
      v.length = m.length := by
  intro v m hok
  obtain ⟨ia, ma⟩ := disk
  cases ia with
  | some idx =>
    cases ma with
    | some mm =>
      simp only [load_or_create_index] at hok
      cases hok
      exact hdisk v m rfl rfl
    | none =>
      simp only [load_or_create_index] at hok
      exact buildIndex_parallel embed files v m hok
  | none =>
    simp only [load_or_create_index] at hok
    exact buildIndex_parallel embed files v m hok

/-- Witness for `C4_index_meta_parallel`: a fresh build over no files
returns the empty parallel pair. -/
theorem C4_index_meta_parallel_witness :
    load_or_create_index (fun _ => [0]) [] ⟨none, none⟩ = Except.ok ([], []) ∧
    ([] : List (List Int)).length = ([] : List MetaRec).length :=
  ⟨rfl, C4_index_meta_parallel (fun _ => [0]) [] ⟨none, none⟩
    (fun _ _ h1 _ => Option.noConfusion h1) [] [] rfl⟩

/-! ### Claim C7 -/

/-- Claim C7, counterexample: a non-PDF file whose raw read raises makes
the whole build raise (`Except.error`), instead of being skipped with
ingestion continuing — dropping even the chunks of the preceding healthy
file, which alone would have built successfully. -/
theorem C7_counterexample :
    load_or_create_index (fun _ => [0])
      ([⟨"good.txt", false, Except.ok [], Except.ok "hello world"⟩,
        ⟨"bad.txt", false, Except.ok [], Except.error ()⟩] : List SrcFile)
      ⟨none, none⟩ = Except.error () ∧
    load_or_create_index (fun _ => [0])
      ([⟨"good.txt", false, Except.ok [], Except.ok "hello world"⟩] : List SrcFile)
      ⟨none, none⟩ =
      Except.ok ([[0]], [⟨"good.txt", "good.txt - chunk 0", "hello world"⟩]) :=
  ⟨rfl, rfl⟩

/-- Claim C7, amended: for PDF files a failed text extraction yields the
empty string and the file is skipped while ingestion continues over the
remaining files (the build result is unchanged by removing that file);
for non-PDF files a raised read error propagates and aborts the build. -/
theorem C7_pdf_failure_skipped (f : SrcFile) (pre post : List SrcFile)
    (embed : String → List Int) (disk : DiskState)
    (hpdf : f.isPdf = true) (hfail : f.pdfPages = Except.error ())
    (hdisk : disk.indexArt = none) :
    extract_text_from_pdf f.pdfPages = "" ∧
    gatherMetas (pre ++ f :: post) = gatherMetas (pre ++ post) ∧
    load_or_create_index embed (pre ++ f :: post) disk =
      load_or_create_index embed (pre ++ post) disk := by
  refine ⟨by rw [hfail]; rfl, gatherMetas_skip_pdf_fail f hpdf hfail pre post, ?_⟩
  obtain ⟨ia, ma⟩ := disk
  have hia : ia = none := hdisk
  subst hia
  simp only [load_or_create_index, buildIndex,
    gatherMetas_skip_pdf_fail f hpdf hfail pre post]

/-- Witness for `C7_pdf_failure_skipped`: a corrupt PDF alone builds the
same (empty) index as no files at all. -/
theorem C7_pdf_failure_skipped_witness :
    extract_text_from_pdf (Except.error ()) = "" ∧
    gatherMetas ([⟨"bad.pdf", true, Except.error (), Except.ok "x"⟩] : List SrcFile) =
      gatherMetas [] ∧
    load_or_create_index (fun _ => [0])
      ([⟨"bad.pdf", true, Except.error (), Except.ok "x"⟩] : List SrcFile) ⟨none, none⟩ =
      load_or_create_index (fun _ => [0]) [] ⟨none, none⟩ :=
  C7_pdf_failure_skipped ⟨"bad.pdf", true, Except.error (), Except.ok "x"⟩ [] []
    (fun _ => [0]) ⟨none, none⟩ rfl rfl rfl

/-! ### Claim C9 -/

/-- Claim C9 fails on the code: the build persists by two separate
in-place writes (index file first, then metadata file), with no
write-then-rename.  Stopping after the first write leaves a readable
disk pair holding the new index next to the old metadata — a partial mix
that is neither the old pair in full nor the new pair in full. -/
theorem C9_persistence_not_atomic :
    diskAfterPrefix [[1]] [⟨"new.txt", "new.txt - chunk 0", "new"⟩]
      ⟨some [[0]], some [⟨"old.txt", "old.txt - chunk 0", "old"⟩]⟩ 1 =
      ⟨some [[1]], some [⟨"old.txt", "old.txt - chunk 0", "old"⟩]⟩ ∧
    diskAfterPrefix [[1]] [⟨"new.txt", "new.txt - chunk 0", "new"⟩]
      ⟨some [[0]], some [⟨"old.txt", "old.txt - chunk 0", "old"⟩]⟩ 1 ≠
      ⟨some [[0]], some [⟨"old.txt", "old.txt - chunk 0", "old"⟩]⟩ ∧
    diskAfterPrefix [[1]] [⟨"new.txt", "new.txt - chunk 0", "new"⟩]
      ⟨some [[0]], some [⟨"old.txt", "old.txt - chunk 0", "old"⟩]⟩ 1 ≠
      ⟨some [[1]], some [⟨"new.txt", "new.txt - chunk 0", "new"⟩]⟩ := by
  refine ⟨by decide, by decide, by decide⟩

/-! ### Pipeline lemmas -/

set_option maxRecDepth 100000

lemma generate_response_fallback (vectors : List (List Int)) (metadatas : List MetaRec)
    (embed : String → List Int) (gen : String → Except String String) (query : String)
    (h : genFails gen (fullPrompt (search vectors metadatas embed query 4) query) = true) :
    generate_response vectors metadatas embed gen query =
      (generate_fallback_response query (search vectors metadatas embed query 4),
        search vectors metadatas embed query 4) := by
  simp only [generate_response]
  cases hg : gen (fullPrompt (search vectors metadatas embed query 4) query) with
  | error e => rfl
  | ok g =>
    rw [genFails, hg] at h
    simp only [] at h
    simp [h]

lemma generate_response_docs (vectors : List (List Int)) (metadatas : List MetaRec)
    (embed : String → List Int) (gen : String → Except String String) (query : String) :
    (generate_response vectors metadatas embed gen query).2 =
      search vectors metadatas embed query 4 := by
  simp only [generate_response]
  cases hg : gen (fullPrompt (search vectors metadatas embed query 4) query) with
  | error e => rfl
  | ok g =>
    by_cases hr :
      (pyStrip (pyDrop g
        (pyLen (fullPrompt (search vectors metadatas embed query 4) query)))).isEmpty =
        true <;>
      simp [hr]

/-! ### Claim C1 -/

/-- Claim C1: if the generator raises, or the completion left after
stripping the echoed prompt is empty or whitespace-only, then
`generate_response` returns exactly the fallback synthesis of the chunks
already retrieved by `_search(query, 4)` (together with those chunks as
sources); no generation failure escapes as an error — the function is
total. -/
theorem C1_generation_failure_falls_back (vectors : List (List Int))
    (metadatas : List MetaRec) (embed : String → List Int)
    (gen : String → Except String String) (query : String)
    (h : genFails gen (fullPrompt (search vectors metadatas embed query 4) query) = true) :
    generate_response vectors metadatas embed gen query =
      (generate_fallback_response query (search vectors metadatas embed query 4),
        search vectors metadatas embed query 4) :=
  generate_response_fallback vectors metadatas embed gen query h

/-- Witness for `C1_generation_failure_falls_back` with an
always-raising generator. -/
theorem C1_generation_failure_falls_back_witness :
    genFails (fun _ => Except.error "boom")
      (fullPrompt (search [] [] (fun _ => [0]) "help" 4) "help") = true ∧
    generate_response [] [] (fun _ => [0]) (fun _ => Except.error "boom") "help" =
      (generate_fallback_response "help" (search [] [] (fun _ => [0]) "help" 4),
        search [] [] (fun _ => [0]) "help" 4) :=
  ⟨rfl, C1_generation_failure_falls_back [] [] (fun _ => [0])
    (fun _ => Except.error "boom") "help" rfl⟩

/-! ### Claim C5 -/

/-- Claim C5: the fallback synthesizer returns the fixed
"no documentation found" message on an empty retrieval; otherwise it
composes its reply from at most the top 3 chunks (the output only depends
on `docs.take 3`), rendering each chunk with its 1-based position and
title over its display text; display text is truncated to 500 characters
with an ellipsis marker exactly when longer; and at most one canned hint
is appended, chosen by keyword matching on the lowered query in the fixed
priority order connection, then error, then performance, first match
wins, with no hint when nothing matches. -/
theorem C5_fallback_shape (q : String) (docs : List MetaRec) (d : MetaRec)
    (ds : List MetaRec) (text : String) :
    generate_fallback_response q [] = noDocsMessage ∧
    generate_fallback_response q docs = generate_fallback_response q (docs.take 3) ∧
    generate_fallback_response q (d :: ds) =
      fallbackHeader ++
        String.join (((d :: ds).take 3).enum.map (fun p => renderDoc (p.1 + 1) p.2)) ++
        queryHint q ++ closingLine ∧
    displayText text = (if 500 < pyLen text then pySlice text 500 ++ "..." else text) ∧
    queryHint q =
      (if matchesAny (pyLower q) connectionWords then connectionHint
       else if matchesAny (pyLower q) errorWords then errorHint
       else if matchesAny (pyLower q) performanceWords then performanceHint
       else "") := by
  refine ⟨rfl, ?_, ?_, rfl, rfl⟩
  · cases docs with
    | nil => rfl
    | cons d0 ds0 => simp [generate_fallback_response, List.take_take]
  · simp [generate_fallback_response]

/-! ### Claim C6 -/

/-- Claim C6, counterexample: with an empty corpus the pipeline still
attempts generation, and a generator that succeeds with a non-empty
completion has its text returned verbatim — `answer` then does not return
the fixed "no documentation found" message. -/
theorem C6_counterexample :
    generate_response [] [] (fun _ => [0]) (fun p => Except.ok (p ++ " Hello")) "hi" =
      ("Hello", []) ∧ ("Hello" : String) ≠ noDocsMessage := by
  refine ⟨by decide, by decide⟩

/-- Claim C6, amended: with an empty corpus, `answer` always returns an
empty source list, and returns the fixed "no documentation found" message
whenever generation fails or strips to an empty completion (a successful
non-empty generation is returned verbatim instead). -/
theorem C6_empty_corpus (embed : String → List Int)
    (gen : String → Except String String) (q : String) :
    (generate_response [] [] embed gen q).2 = [] ∧
    (genFails gen (fullPrompt (search [] [] embed q 4) q) = true →
      (generate_response [] [] embed gen q).1 = noDocsMessage) := by
  constructor
  · rw [generate_response_docs, search_nil]
  · intro h
    rw [generate_response_fallback [] [] embed gen q h, search_nil]
    rfl

/-- Witness for `C6_empty_corpus` with an always-raising generator. -/
theorem C6_empty_corpus_witness :
    (generate_response [] [] (fun _ => [0]) (fun _ => Except.error "x") "hi").2 = [] ∧
    (generate_response [] [] (fun _ => [0]) (fun _ => Except.error "x") "hi").1 =
      noDocsMessage :=
  ⟨(C6_empty_corpus (fun _ => [0]) (fun _ => Except.error "x") "hi").1,
    (C6_empty_corpus (fun _ => [0]) (fun _ => Except.error "x") "hi").2 rfl⟩

/-! ### Claim C10 -/

lemma pySlice_idem (t : String) (n : Nat) : pySlice (pySlice t n) n = pySlice t n := by
  show String.mk ((t.data.take n).take n) = String.mk (t.data.take n)
  rw [List.take_take, min_self]

lemma contextBlock_congr (docs docs2 : List MetaRec)
    (ht : docs.map MetaRec.title = docs2.map MetaRec.title)
    (hx : docs.map (fun d => pySlice d.text 1000) =
      docs2.map (fun d => pySlice d.text 1000)) :
    contextBlock docs = contextBlock docs2 := by
  have hmap : ∀ l l2 : List MetaRec, l.map MetaRec.title = l2.map MetaRec.title →
      l.map (fun d => pySlice d.text 1000) = l2.map (fun d => pySlice d.text 1000) →
      l.map contextEntry = l2.map contextEntry := by
    intro l
    induction l with
    | nil =>
      intro l2 h1 _
      cases l2 with
      | nil => rfl
      | cons a b => simp at h1
    | cons d rest ih =>
      intro l2 h1 h2
      cases l2 with
      | nil => simp at h1
      | cons d2 rest2 =>
        simp only [List.map_cons, List.cons.injEq] at h1 h2 ⊢
        exact ⟨by rw [contextEntry, contextEntry, h1.1, h2.1], ih rest2 h1.2 h2.2⟩
  cases docs with
  | nil =>
    cases docs2 with
    | nil => rfl
    | cons a b => simp at ht
  | cons d r =>
    cases docs2 with
    | nil => simp at ht
    | cons d2 r2 =>
      rw [contextBlock, contextBlock, hmap (d :: r) (d2 :: r2) ht hx]
      simp [List.isEmpty_cons]

/-- Claim C10: prompt assembly truncates each retrieved chunk's text to
its first 1000 characters — each context entry is built from
`text[:1000]`, the assembled prompt only depends on each chunk's title
and first 1000 text characters, and the context block is unchanged by
truncating every chunk to 1000 characters beforehand; the generator never
sees any character beyond the first 1000 of a chunk. -/
theorem C10_prompt_truncation (docs docs2 : List MetaRec) (q : String) (d : MetaRec)
    (ht : docs.map MetaRec.title = docs2.map MetaRec.title)
    (hx : docs.map (fun r => pySlice r.text 1000) =
      docs2.map (fun r => pySlice r.text 1000)) :
    fullPrompt docs q = fullPrompt docs2 q ∧
    contextEntry d = "Title: " ++ d.title ++ "\n" ++ pySlice d.text 1000 ∧
    contextBlock docs =
      contextBlock (docs.map (fun r => ⟨r.source, r.title, pySlice r.text 1000⟩)) := by
  refine ⟨?_, rfl, ?_⟩
  · rw [fullPrompt, fullPrompt, contextBlock_congr docs docs2 ht hx]
  · apply contextBlock_congr
    · rw [List.map_map]
      exact List.map_congr_left (fun r _ => rfl)
    · rw [List.map_map]
      exact List.map_congr_left (fun r _ => (pySlice_idem r.text 1000).symm)

/-- Witness for `C10_prompt_truncation`: two 1001-character chunk texts
agreeing on their first 1000 characters produce the same prompt. -/
theorem C10_prompt_truncation_witness :
    ([⟨"s", "t", String.mk (List.replicate 1000 'a' ++ ['b'])⟩] : List MetaRec).map
        MetaRec.title =
      ([⟨"s", "t", String.mk (List.replicate 1000 'a' ++ ['c'])⟩] : List MetaRec).map
        MetaRec.title ∧
    fullPrompt [⟨"s", "t", String.mk (List.replicate 1000 'a' ++ ['b'])⟩] "q" =
      fullPrompt [⟨"s", "t", String.mk (List.replicate 1000 'a' ++ ['c'])⟩] "q" :=
  ⟨rfl,
    (C10_prompt_truncation [⟨"s", "t", String.mk (List.replicate 1000 'a' ++ ['b'])⟩]
      [⟨"s", "t", String.mk (List.replicate 1000 'a' ++ ['c'])⟩] "q" ⟨"x", "y", "z"⟩
      rfl (by decide)).1⟩

end IngresRag
